import Mathlib

/-!
# Verification of the `data-ref` core (`src/lib/dataref.ts`, `dataref-types.ts`)

A shallow embedding of the DataRef data model, the offload policy
`copyLargeBlobsToRemote`, the value conversion `base64ToDataRef`, and the blob
conversion `dataRefToBlob`, with theorems settling the specification claims.

Modelling conventions:
* JavaScript dynamic values carried in a `DataRef.value` field are modelled by
  the inductive `JsValue` (string, number, boolean, null, array, object).
* Byte buffers (`Uint8Array` / `ArrayBuffer`) are `List Nat`, each entry < 256.
* The external hashing primitive `objectHash.sha1` (which serializes its input
  with a runtime-type tag before hashing, so a string and a byte array never
  collide by construction) is an injected parameter `sha1 : HashInput → String`
  applied to a tagged `HashInput`.
* The injected asynchronous upload functions are pure parameters returning
  `Except ε DataRef`; each actual invocation is recorded in a trace component
  of the result so that call counts are observable.  Failure of an upload
  (promise rejection) is the `Except.error` case and propagates, which models
  the `Promise.all` all-or-nothing join of the source.
* The external base64 primitives (`Unibabel.base64ToBuffer`, i.e. `atob`) and
  UTF-8 encoding (`Unibabel.utf8ToBuffer`) are modelled by executable
  standard-conforming functions below.
-/

/-- A JavaScript runtime value, as can be stored in a `DataRef.value` field. -/
inductive JsValue where
  | str (s : String)
  | num (n : Int)
  | bool (b : Bool)
  | null
  | arr (xs : List JsValue)
  | obj (fields : List (String × JsValue))

/-- `dataref-types.ts`: `enum DataRefType { base64, url, utf8, json, hash }`. -/
inductive DataRefType where
  | base64
  | url
  | utf8
  | json
  | hash
deriving DecidableEq, Repr

/-- `dataref-types.ts`: `DataRefTypeDefault = DataRefType.base64`. -/
def DataRefTypeDefault : DataRefType := DataRefType.base64

/-- `dataref-types.ts`: `DataRef = { value; hash?; type? }`.  Absent optional
fields are `none`. -/
structure DataRef where
  value : JsValue
  hash : Option String
  type : Option DataRefType

/-- `InputsRefs`: a name-to-DataRef mapping, modelled as an association list
with pairwise-distinct names. -/
def InputsRefs := List (String × DataRef)

/-- The input to the external `objectHash.sha1` primitive: either a
`Uint8Array` of bytes or a string.  `object-hash` serializes its argument
together with its runtime type before hashing, so the two constructors are
kept distinct. -/
inductive HashInput where
  | bytes (bs : List Nat)
  | str (s : String)
deriving DecidableEq, Repr

/-- The effective encoding type used at every dispatch site:
`dataRef.type || DataRefTypeDefault`.  The enum values are nonempty strings,
hence truthy, so `||` reads as `Option.getD`. -/
def effectiveType (r : DataRef) : DataRefType :=
  r.type.getD DataRefTypeDefault

/-- JavaScript truthiness of a `JsValue`, as tested by
`if (inputs[name] && inputs[name].value)`. -/
def truthy : JsValue → Bool
  | JsValue.str s => !s.isEmpty
  | JsValue.num n => n != 0
  | JsValue.bool b => b
  | JsValue.null => false
  | JsValue.arr _ => true
  | JsValue.obj _ => true

/-- The JavaScript `.length` property of a value: character count of a
string, element count of an array (`Array.prototype.length`), and `undefined`
(`none`) for every other value.  The callers below compare it against a bound
with `value.length > n`, which is false when `.length` is `undefined`; they
encode that as comparing `(jsLength v).getD 0`, which is likewise false. -/
def jsLength : JsValue → Option Nat
  | JsValue.str s => some s.length
  | JsValue.arr xs => some xs.length
  | _ => none

mutual
/-- JavaScript `ToString` coercion, as applied implicitly when a non-string
value reaches a DOMString position (`atob` inside `Unibabel.base64ToBuffer`,
`encodeURIComponent` inside `Unibabel.utf8ToBuffer`): an object coerces to
"[object Object]", an array to its comma-joined elements. -/
def jsToString : JsValue → String
  | JsValue.str s => s
  | JsValue.num n => toString n
  | JsValue.bool b => if b then "true" else "false"
  | JsValue.null => "null"
  | JsValue.arr xs => jsToStringList xs
  | JsValue.obj _ => "[object Object]"

/-- `Array.prototype.join` with "," — a `null` element renders as the empty
string. -/
def jsToStringList : List JsValue → String
  | [] => ""
  | [JsValue.null] => ""
  | [x] => jsToString x
  | JsValue.null :: rest => "," ++ jsToStringList rest
  | x :: rest => jsToString x ++ "," ++ jsToStringList rest
end

/-- UTF-8 encoding of one Unicode code point (the standard 1-4 byte form). -/
def utf8EncodeCharBytes (c : Char) : List Nat :=
  let n := c.toNat
  if n < 128 then [n]
  else if n < 2048 then [192 + n / 64, 128 + n % 64]
  else if n < 65536 then [224 + n / 4096, 128 + n / 64 % 64, 128 + n % 64]
  else [240 + n / 262144, 128 + n / 4096 % 64, 128 + n / 64 % 64, 128 + n % 64]

/-- Model of the external `Unibabel.utf8ToBuffer`: the UTF-8 byte sequence of
a string. -/
def utf8ToBuffer (s : String) : List Nat :=
  (s.data.map utf8EncodeCharBytes).flatten

/-- The standard base64 alphabet, indexed by sextet value. -/
def base64Alphabet : List Char :=
  "ABCDEFGHIJKLMNOPQRSTUVWXYZabcdefghijklmnopqrstuvwxyz0123456789+/".data

/-- The base64 character for a sextet value. -/
def b64char (n : Nat) : Char := base64Alphabet.getD n 'A'

/-- The sextet value of a base64 character (its index in the alphabet). -/
def b64val (c : Char) : Nat := base64Alphabet.indexOf c

/-- The base64 decoding core: four characters at a time, honouring `=`
padding and a final unpadded group of two or three characters.  It is total;
input validation (`atob` throws on malformed base64) is done by
`base64ToBuffer` below. -/
def b64decodeChars : List Char → List Nat
  | w :: x :: y :: z :: rest =>
    if y = '=' then
      [b64val w * 4 + b64val x / 16]
    else if z = '=' then
      [b64val w * 4 + b64val x / 16,
       b64val x % 16 * 16 + b64val y / 4]
    else
      (b64val w * 4 + b64val x / 16) ::
      (b64val x % 16 * 16 + b64val y / 4) ::
      (b64val y % 4 * 64 + b64val z) :: b64decodeChars rest
  | [w, x] => [b64val w * 4 + b64val x / 16]
  | [w, x, y] =>
    [b64val w * 4 + b64val x / 16,
     b64val x % 16 * 16 + b64val y / 4]
  | _ => []

/-- Whether `atob` accepts a character sequence (forgiving-base64 minus the
whitespace stripping, which no caller here exercises): full groups of
alphabet characters, with a final group that is either four alphabet
characters, three alphabet characters and one `=`, two alphabet characters
and `==`, or an unpadded group of two or three alphabet characters.  A
remainder of one character, an out-of-alphabet character, or `=` anywhere
else is rejected. -/
def validBase64 : List Char → Bool
  | [] => true
  | [w, x] => b64val w < 64 && b64val x < 64
  | [w, x, y] => b64val w < 64 && b64val x < 64 && b64val y < 64
  | [w, x, y, z] =>
    b64val w < 64 && b64val x < 64 &&
      ((b64val y < 64 && (b64val z < 64 || z = '=')) || (y = '=' && z = '='))
  | w :: x :: y :: z :: rest =>
    b64val w < 64 && b64val x < 64 && b64val y < 64 && b64val z < 64 &&
      validBase64 rest
  | _ => false

/-- Model of the external `Unibabel.base64ToBuffer`, i.e. `atob` plus char
codes: `atob` throws `InvalidCharacterError` on malformed base64 (`none`
here) and otherwise yields the decoded bytes. -/
def base64ToBuffer (s : String) : Option (List Nat) :=
  if validBase64 s.data then some (b64decodeChars s.data) else none

/-- Standard base64 encoding of a byte sequence (the spec side of the
round-trip claim: "B's base64 encoding"). -/
def b64encodeBytes : List Nat → List Char
  | [] => []
  | [a] => [b64char (a / 4), b64char (a % 4 * 16), '=', '=']
  | [a, b] => [b64char (a / 4), b64char (a % 4 * 16 + b / 16), b64char (b % 16 * 4), '=']
  | a :: b :: c :: rest =>
    b64char (a / 4) :: b64char (a % 4 * 16 + b / 16) ::
    b64char (b % 16 * 4 + c / 64) :: b64char (c % 64) :: b64encodeBytes rest

/-- Standard base64 encoding, as a string. -/
def base64Encode (bs : List Nat) : String := String.mk (b64encodeBytes bs)

/-- A lowercase hexadecimal digit. -/
def hexDigit (n : Nat) : Char := "0123456789abcdef".data.getD n '0'

/-- JSON string escaping of one character, as `JSON.stringify` performs it:
quote and backslash are backslash-escaped, the common control characters use
their short forms, the remaining control characters a `\u00xx` form. -/
def escapeJsonChar (c : Char) : List Char :=
  if c = '"' then ['\\', '"']
  else if c = '\\' then ['\\', '\\']
  else if c = '\x08' then ['\\', 'b']
  else if c = '\x09' then ['\\', 't']
  else if c = '\x0a' then ['\\', 'n']
  else if c = '\x0c' then ['\\', 'f']
  else if c = '\x0d' then ['\\', 'r']
  else if c.toNat < 32 then
    ['\\', 'u', '0', '0', hexDigit (c.toNat / 16), hexDigit (c.toNat % 16)]
  else [c]

/-- JSON string escaping, as `JSON.stringify` applies it between quotes. -/
def escapeJsonString (s : String) : String :=
  String.mk ((s.data.map escapeJsonChar).flatten)

mutual
/-- Model of `JSON.stringify` on a `JsValue`. -/
def jsonStringify : JsValue → String
  | JsValue.str s => "\"" ++ escapeJsonString s ++ "\""
  | JsValue.num n => toString n
  | JsValue.bool b => if b then "true" else "false"
  | JsValue.null => "null"
  | JsValue.arr xs => "[" ++ jsonStringifyList xs ++ "]"
  | JsValue.obj fs => "\x7b" ++ jsonStringifyFields fs ++ "\x7d"

/-- Comma-joined serialization of a JSON array's elements. -/
def jsonStringifyList : List JsValue → String
  | [] => ""
  | [x] => jsonStringify x
  | x :: rest => jsonStringify x ++ "," ++ jsonStringifyList rest

/-- Comma-joined serialization of a JSON object's fields. -/
def jsonStringifyFields : List (String × JsValue) → String
  | [] => ""
  | [(k, v)] => "\"" ++ escapeJsonString k ++ "\":" ++ jsonStringify v
  | (k, v) :: rest =>
    "\"" ++ escapeJsonString k ++ "\":" ++ jsonStringify v ++ "," ++
      jsonStringifyFields rest
end

/-- `dataref.ts`: `ENV_VAR_DATA_ITEM_LENGTH_MAX = 200`. -/
def ENV_VAR_DATA_ITEM_LENGTH_MAX : Nat := 200

/-- Why a per-entry promise of the fan-out rejects: an exception thrown
synchronously inside the closure (`atob`'s `InvalidCharacterError`), or the
rejection of the injected upload call. -/
inductive JsRejection (ε : Type) where
  | thrown (e : String)
  | uploadRejected (e : ε)

/-- The `switch (type)` statement of `copyLargeBlobsToRemote` computing
`uint8ArrayIfBig`: `Except.ok (some bytes)` when the entry is too big and its
value decodes (the decoded bytes), `Except.ok none` (`undefined`) when the
entry is left alone, and `Except.error` when the base64 decode of a too-big
value throws.  The `case DataRefType.hash` arm falls through with
`uint8ArrayIfBig` unset; `case DataRefType.base64: default:` covers both
`base64` and `url`. -/
def uint8ArrayIfBig (r : DataRef) : Except String (Option (List Nat)) :=
  match effectiveType r with
  | DataRefType.hash => Except.ok none
  | DataRefType.json =>
    if truthy r.value then
      let jsonString := jsonStringify r.value
      if ENV_VAR_DATA_ITEM_LENGTH_MAX < jsonString.length then
        Except.ok (some (utf8ToBuffer jsonString))
      else Except.ok none
    else Except.ok none
  | DataRefType.utf8 =>
    if ENV_VAR_DATA_ITEM_LENGTH_MAX < (jsLength r.value).getD 0 then
      Except.ok (some (utf8ToBuffer (jsToString r.value)))
    else Except.ok none
  | _ =>
    if ENV_VAR_DATA_ITEM_LENGTH_MAX < (jsLength r.value).getD 0 then
      match base64ToBuffer (jsToString r.value) with
      | some bytes => Except.ok (some bytes)
      | none => Except.error "InvalidCharacterError"
    else Except.ok none

/-- The marking decision of the switch, with the bytes the decode yields
whenever it does not throw (the base64 arm taken by the total decoding
core).  On every run in which the switch does not throw the two agree
(`uint8ArrayIfBig_ok`), so on every successful run of the fan-out this is
exactly the switch's outcome. -/
def offloadBytesOf (r : DataRef) : Option (List Nat) :=
  match effectiveType r with
  | DataRefType.hash => none
  | DataRefType.json =>
    if truthy r.value then
      let jsonString := jsonStringify r.value
      if ENV_VAR_DATA_ITEM_LENGTH_MAX < jsonString.length then
        some (utf8ToBuffer jsonString)
      else none
    else none
  | DataRefType.utf8 =>
    if ENV_VAR_DATA_ITEM_LENGTH_MAX < (jsLength r.value).getD 0 then
      some (utf8ToBuffer (jsToString r.value))
    else none
  | _ =>
    if ENV_VAR_DATA_ITEM_LENGTH_MAX < (jsLength r.value).getD 0 then
      some (b64decodeChars (jsToString r.value).data)
    else none

/-- The body of the per-entry async closure inside `copyLargeBlobsToRemote`:
run the switch (whose base64 decode may throw, rejecting this entry's
promise); if the entry is big, hash its decoded bytes, upload them, overwrite
the returned ref's hash with the local digest and install it; otherwise keep
the entry as is.  The second component records the bytes of each upload call
actually made. -/
def copyEntry {ε : Type} (sha1 : HashInput → String)
    (upload : List Nat → Except ε DataRef) (r : DataRef) :
    Except (JsRejection ε) (DataRef × List (List Nat)) :=
  match uint8ArrayIfBig r with
  | Except.error e => Except.error (JsRejection.thrown e)
  | Except.ok (some bytes) =>
    let h := sha1 (HashInput.bytes bytes)
    match upload bytes with
    | Except.error e => Except.error (JsRejection.uploadRejected e)
    | Except.ok remoteRef =>
      Except.ok ({ remoteRef with hash := some h }, [bytes])
  | Except.ok none => Except.ok (r, [])

/-- The fan-out over all entries of the mapping (`Promise.all` over
`Object.keys(inputs).map(...)`): every entry is processed by `copyEntry`, the
first rejection rejects the whole aggregate, and on success the per-entry
results are assembled under their original names with the upload traces
joined. -/
def copyEntries {ε : Type} (sha1 : HashInput → String)
    (upload : List Nat → Except ε DataRef) :
    List (String × DataRef) →
      Except (JsRejection ε) (List (String × DataRef) × List (List Nat))
  | [] => Except.ok ([], [])
  | (name, r) :: rest =>
    match copyEntry sha1 upload r with
    | Except.error e => Except.error e
    | Except.ok (r2, t1) =>
      match copyEntries sha1 upload rest with
      | Except.error e => Except.error e
      | Except.ok (rs, t2) => Except.ok ((name, r2) :: rs, t1 ++ t2)

/-- `dataref.ts`: `copyLargeBlobsToRemote(inputs, upload)`.  An absent
(`undefined`) mapping is returned as absent; a present mapping is processed by
the concurrent fan-out. -/
def copyLargeBlobsToRemote {ε : Type} (sha1 : HashInput → String)
    (inputs : Option (List (String × DataRef)))
    (upload : List Nat → Except ε DataRef) :
    Except (JsRejection ε) (Option (List (String × DataRef)) × List (List Nat)) :=
  match inputs with
  | none => Except.ok (none, [])
  | some m =>
    match copyEntries sha1 upload m with
    | Except.error e => Except.error e
    | Except.ok (rs, t) => Except.ok (some rs, t)

/-- `dataref.ts`: `base64ToDataRef(value, ⟨upload, ignoreHash,
maxLengthUnmodified⟩)`.  Below the threshold the value is kept inline with an
optional digest of the string; otherwise it is uploaded and, unless
`ignoreHash`, the returned ref's hash is overwritten with the digest of the
string.  The second component records the upload calls made. -/
def base64ToDataRef {ε : Type} (sha1 : HashInput → String) (value : String)
    (upload : String → Except ε DataRef) (ignoreHash : Bool)
    (maxLengthUnmodified : Nat) :
    Except ε (DataRef × List String) :=
  if value.length < maxLengthUnmodified then
    Except.ok
      ({ value := JsValue.str value,
         hash := if ignoreHash then none else some (sha1 (HashInput.str value)),
         type := some DataRefType.base64 }, [])
  else
    match upload value with
    | Except.error e => Except.error e
    | Except.ok remoteRef =>
      Except.ok
        (if ignoreHash then remoteRef
         else { remoteRef with hash := some (sha1 (HashInput.str value)) }, [value])

/-- A binary blob: `new Blob([buffer])` over a single byte buffer. -/
structure Blob where
  bytes : List Nat
deriving DecidableEq, Repr

/-- `dataref.ts`: `dataRefToBlob(dataRef)`.  Dispatches on the effective type;
`hash` throws, `url` fetches through the injected network primitive
(`fetchBlobFromUrl` uses the global `fetch`, modelled as a parameter), and
`case DataRefType.base64: default:` decodes base64 — where `atob` throws
`InvalidCharacterError` on malformed input, the value having been coerced to
a string first. -/
def dataRefToBlob (fetchBlob : String → Except String (List Nat))
    (dataRef : DataRef) : Except String Blob :=
  match effectiveType dataRef with
  | DataRefType.hash => Except.error "Cannot crate blob from type=hash"
  | DataRefType.json =>
    Except.ok (Blob.mk (utf8ToBuffer (jsonStringify dataRef.value)))
  | DataRefType.utf8 =>
    Except.ok (Blob.mk (utf8ToBuffer (jsToString dataRef.value)))
  | DataRefType.url =>
    match fetchBlob (jsToString dataRef.value) with
    | Except.error e => Except.error e
    | Except.ok buffer => Except.ok (Blob.mk buffer)
  | _ =>
    match base64ToBuffer (jsToString dataRef.value) with
    | some buffer => Except.ok (Blob.mk buffer)
    | none => Except.error "InvalidCharacterError"

/-- The inline-encoded length of an entry, as measured by the offload policy:
the serialized JSON text length for `json`-typed entries and the JS
`.length` of the value otherwise (0 standing for an absent `.length`, whose
comparison against the bound is false either way). -/
def inlineSize (r : DataRef) : Nat :=
  match effectiveType r with
  | DataRefType.json => (jsonStringify r.value).length
  | _ => (jsLength r.value).getD 0

/-- Whether an `Except` result is the failure case (a rejected promise). -/
def isError {ε α : Type} : Except ε α → Bool
  | Except.error _ => true
  | Except.ok _ => false

/-- A concrete instance of the hashing primitive for concrete runs: like
`object-hash`, it incorporates the runtime type of its argument into the
digest, so a byte array and a string never share a digest. -/
def tagSha1 : HashInput → String
  | HashInput.bytes bs => "bytes:" ++ toString bs.length
  | HashInput.str s => "str:" ++ s

/-- A concrete DataRef as a remote store would return it from an upload,
carrying the remote side's own digest. -/
def remoteRefConst : DataRef :=
  { value := JsValue.str "remote-key",
    hash := some "server-digest",
    type := some DataRefType.hash }

/-- A concrete always-succeeding byte upload. -/
def uploadBytesOk : List Nat → Except String DataRef :=
  fun _ => Except.ok remoteRefConst

/-- A concrete always-failing byte upload. -/
def uploadBytesBoom : List Nat → Except String DataRef :=
  fun _ => Except.error "upload failed"

/-- A concrete always-succeeding string upload. -/
def uploadStringOk : String → Except String DataRef :=
  fun _ => Except.ok remoteRefConst

/-- A concrete fetch primitive for concrete runs of `dataRefToBlob`. -/
def fetchConst : String → Except String (List Nat) :=
  fun _ => Except.ok []

/-- A concrete string of exactly 200 characters. -/
def chars200 : String := String.mk (List.replicate 200 'x')

/-- A concrete string of exactly 201 characters. -/
def chars201 : String := String.mk (List.replicate 201 'x')

/-- A concrete below-threshold utf8-typed entry. -/
def smallUtf8Ref : DataRef :=
  { value := JsValue.str "abc", hash := none, type := some DataRefType.utf8 }

/-- A concrete above-threshold utf8-typed entry. -/
def bigUtf8Ref : DataRef :=
  { value := JsValue.str chars201, hash := none, type := some DataRefType.utf8 }

/-- A concrete hash-typed entry with an above-threshold value. -/
def bigHashRef : DataRef :=
  { value := JsValue.str chars201, hash := some "k", type := some DataRefType.hash }

/-- A concrete url-typed entry with an above-threshold value. -/
def bigUrlRef : DataRef :=
  { value := JsValue.str chars201, hash := none, type := some DataRefType.url }

/-- A concrete untyped entry whose object value serializes to more than 200
JSON characters. -/
def bigObjRef : DataRef :=
  { value := JsValue.obj [("a", JsValue.str chars201)], hash := none, type := none }

/-- A concrete string of exactly 204 characters that is valid base64 (51 full
groups of "AAAA", each decoding to three zero bytes). -/
def chars204A : String := String.mk (List.replicate 204 'A')

/-- A concrete url-typed entry whose above-threshold value happens to be
valid base64. -/
def validB64UrlRef : DataRef :=
  { value := JsValue.str chars204A, hash := none, type := some DataRefType.url }

theorem b64val_b64char : ∀ n < 64, b64val (b64char n) = n := by decide

theorem b64char_ne_pad : ∀ n < 64, b64char n ≠ '=' := by decide

/-- Decoding inverts encoding on genuine byte sequences. -/
theorem b64decode_b64encode (B : List Nat) (h : ∀ x ∈ B, x < 256) :
    b64decodeChars (b64encodeBytes B) = B := by
  induction B using b64encodeBytes.induct with
  | case1 => rfl
  | case2 a =>
    have ha : a < 256 := h a (by simp)
    show b64decodeChars [b64char (a / 4), b64char (a % 4 * 16), '=', '='] = [a]
    rw [b64decodeChars]
    rw [if_pos rfl]
    rw [b64val_b64char _ (by omega), b64val_b64char _ (by omega)]
    simp only [List.cons.injEq, and_true]
    omega
  | case3 a b =>
    have ha : a < 256 := h a (by simp)
    have hb : b < 256 := h b (by simp)
    show b64decodeChars
        [b64char (a / 4), b64char (a % 4 * 16 + b / 16), b64char (b % 16 * 4), '='] = [a, b]
    rw [b64decodeChars]
    rw [if_neg (b64char_ne_pad _ (by omega))]
    rw [if_pos rfl]
    rw [b64val_b64char _ (by omega), b64val_b64char _ (by omega),
        b64val_b64char _ (by omega)]
    simp only [List.cons.injEq, and_true]
    omega
  | case4 a b c rest ih =>
    have ha : a < 256 := h a (by simp)
    have hb : b < 256 := h b (by simp)
    have hc : c < 256 := h c (by simp)
    show b64decodeChars
        (b64char (a / 4) :: b64char (a % 4 * 16 + b / 16) ::
         b64char (b % 16 * 4 + c / 64) :: b64char (c % 64) ::
         b64encodeBytes rest) = a :: b :: c :: rest
    rw [b64decodeChars]
    rw [if_neg (b64char_ne_pad _ (by omega))]
    rw [if_neg (b64char_ne_pad _ (by omega))]
    rw [b64val_b64char _ (by omega), b64val_b64char _ (by omega),
        b64val_b64char _ (by omega), b64val_b64char _ (by omega)]
    rw [ih (fun x hx => h x (by simp [hx]))]
    simp only [List.cons.injEq, and_true]
    omega

/-- The encoder only emits alphabet characters and trailing padding, in
groups the atob model accepts. -/
theorem validBase64_b64encode (B : List Nat) (h : ∀ x ∈ B, x < 256) :
    validBase64 (b64encodeBytes B) = true := by
  induction B using b64encodeBytes.induct with
  | case1 => rfl
  | case2 a =>
    have ha : a < 256 := h a (by simp)
    show validBase64 [b64char (a / 4), b64char (a % 4 * 16), '=', '='] = true
    simp only [validBase64, b64val_b64char (a / 4) (by omega),
      b64val_b64char (a % 4 * 16) (by omega), Bool.and_eq_true, Bool.or_eq_true,
      decide_eq_true_eq]
    exact ⟨⟨by omega, by omega⟩, Or.inr ⟨trivial, trivial⟩⟩
  | case3 a b =>
    have ha : a < 256 := h a (by simp)
    have hb : b < 256 := h b (by simp)
    show validBase64
        [b64char (a / 4), b64char (a % 4 * 16 + b / 16), b64char (b % 16 * 4), '='] = true
    simp only [validBase64, b64val_b64char (a / 4) (by omega),
      b64val_b64char (a % 4 * 16 + b / 16) (by omega),
      b64val_b64char (b % 16 * 4) (by omega), Bool.and_eq_true, Bool.or_eq_true,
      decide_eq_true_eq]
    exact ⟨⟨by omega, by omega⟩, Or.inl ⟨by omega, Or.inr trivial⟩⟩
  | case4 a b c rest ih =>
    have ha : a < 256 := h a (by simp)
    have hb : b < 256 := h b (by simp)
    have hc : c < 256 := h c (by simp)
    have ihr := ih (fun x hx => h x (by simp [hx]))
    show validBase64
        (b64char (a / 4) :: b64char (a % 4 * 16 + b / 16) ::
         b64char (b % 16 * 4 + c / 64) :: b64char (c % 64) ::
         b64encodeBytes rest) = true
    cases hrest : b64encodeBytes rest with
    | nil =>
      simp only [validBase64, b64val_b64char (a / 4) (by omega),
        b64val_b64char (a % 4 * 16 + b / 16) (by omega),
        b64val_b64char (b % 16 * 4 + c / 64) (by omega),
        b64val_b64char (c % 64) (by omega), Bool.and_eq_true, Bool.or_eq_true,
        decide_eq_true_eq]
      exact ⟨⟨by omega, by omega⟩, Or.inl ⟨by omega, Or.inl (by omega)⟩⟩
    | cons e es =>
      rw [hrest] at ihr
      simp only [validBase64, b64val_b64char (a / 4) (by omega),
        b64val_b64char (a % 4 * 16 + b / 16) (by omega),
        b64val_b64char (b % 16 * 4 + c / 64) (by omega),
        b64val_b64char (c % 64) (by omega), Bool.and_eq_true,
        decide_eq_true_eq]
      exact ⟨⟨⟨⟨by omega, by omega⟩, by omega⟩, by omega⟩, ihr⟩

/-- `base64ToBuffer` (the atob model) succeeds on every encoder output and
inverts `base64Encode` on genuine byte sequences. -/
theorem base64ToBuffer_base64Encode (B : List Nat) (h : ∀ x ∈ B, x < 256) :
    base64ToBuffer (base64Encode B) = some B := by
  unfold base64ToBuffer
  rw [show (base64Encode B).data = b64encodeBytes B from rfl]
  rw [if_pos (validBase64_b64encode B h), b64decode_b64encode B h]

/-- Where the atob model succeeds, its bytes are those of the total decoding
core. -/
theorem base64ToBuffer_eq_some (s : String) (bs : List Nat)
    (h : base64ToBuffer s = some bs) : b64decodeChars s.data = bs := by
  unfold base64ToBuffer at h
  by_cases hv : validBase64 s.data = true
  · rw [if_pos hv] at h
    injection h
  · rw [if_neg hv] at h
    cases h

/-- A JavaScript-falsy value serializes to far fewer than 200 JSON
characters, so the truthiness guard in the `json` arm never hides an
over-threshold payload. -/
theorem jsonStringify_falsy_lt (v : JsValue) (h : truthy v = false) :
    (jsonStringify v).length < 200 := by
  cases v with
  | str s =>
    have hs : s = "" := by
      simpa [truthy, String.isEmpty_iff] using h
    subst hs
    decide
  | num n =>
    have hn : n = 0 := by simpa [truthy] using h
    subst hn
    decide
  | bool b =>
    have hb : b = false := by simpa [truthy] using h
    subst hb
    decide
  | null => decide
  | arr xs => simp [truthy] at h
  | obj fs => simp [truthy] at h

/-- The offload test marks an entry exactly when its effective type is not
`hash` and its inline size strictly exceeds 200. -/
theorem offloadBytesOf_isSome_iff (r : DataRef) :
    (offloadBytesOf r).isSome = true ↔
      (effectiveType r ≠ DataRefType.hash ∧ 200 < inlineSize r) := by
  unfold offloadBytesOf inlineSize ENV_VAR_DATA_ITEM_LENGTH_MAX
  cases ht : effectiveType r with
  | hash => simp
  | json =>
    by_cases htr : truthy r.value
    · by_cases hlen : 200 < (jsonStringify r.value).length <;> simp [htr, hlen]
    · have hsmall := jsonStringify_falsy_lt r.value (by simpa using htr)
      simp only [htr, Bool.false_eq_true, if_false, Option.isSome_none,
        Bool.false_eq_true, false_iff]
      intro hcon
      omega
  | utf8 =>
    by_cases hlen : 200 < (jsLength r.value).getD 0 <;> simp [hlen]
  | url =>
    by_cases hlen : 200 < (jsLength r.value).getD 0 <;> simp [hlen]
  | base64 =>
    by_cases hlen : 200 < (jsLength r.value).getD 0 <;> simp [hlen]

/-- An entry whose inline size is below the threshold is never marked. -/
theorem offloadBytesOf_eq_none_of_small (r : DataRef) (h : inlineSize r < 200) :
    offloadBytesOf r = none := by
  cases hne : offloadBytesOf r with
  | none => rfl
  | some b =>
    have hsome : (offloadBytesOf r).isSome = true := by simp [hne]
    rcases (offloadBytesOf_isSome_iff r).mp hsome with ⟨-, hgt⟩
    omega

/-- Where the switch does not throw, its outcome is `offloadBytesOf`. -/
theorem uint8ArrayIfBig_ok (r : DataRef) (o : Option (List Nat))
    (h : uint8ArrayIfBig r = Except.ok o) : offloadBytesOf r = o := by
  cases ht : effectiveType r with
  | hash =>
    simp only [uint8ArrayIfBig, offloadBytesOf, ht] at h ⊢
    injection h
  | json =>
    simp only [uint8ArrayIfBig, offloadBytesOf, ht] at h ⊢
    by_cases htr : truthy r.value
    · by_cases hlen : ENV_VAR_DATA_ITEM_LENGTH_MAX < (jsonStringify r.value).length
      · simp only [if_pos htr, if_pos hlen] at h ⊢
        injection h
      · simp only [if_pos htr, if_neg hlen] at h ⊢
        injection h
    · simp only [if_neg htr] at h ⊢
      injection h
  | utf8 =>
    simp only [uint8ArrayIfBig, offloadBytesOf, ht] at h ⊢
    by_cases hlen : ENV_VAR_DATA_ITEM_LENGTH_MAX < (jsLength r.value).getD 0
    · simp only [if_pos hlen] at h ⊢
      injection h
    · simp only [if_neg hlen] at h ⊢
      injection h
  | url =>
    simp only [uint8ArrayIfBig, offloadBytesOf, ht] at h ⊢
    by_cases hlen : ENV_VAR_DATA_ITEM_LENGTH_MAX < (jsLength r.value).getD 0
    · simp only [if_pos hlen] at h ⊢
      cases hdec : base64ToBuffer (jsToString r.value) with
      | some bytes =>
        rw [hdec] at h
        injection h with h
        rw [base64ToBuffer_eq_some (jsToString r.value) bytes hdec]
        exact h
      | none =>
        rw [hdec] at h
        cases h
    · simp only [if_neg hlen] at h ⊢
      injection h
  | base64 =>
    simp only [uint8ArrayIfBig, offloadBytesOf, ht] at h ⊢
    by_cases hlen : ENV_VAR_DATA_ITEM_LENGTH_MAX < (jsLength r.value).getD 0
    · simp only [if_pos hlen] at h ⊢
      cases hdec : base64ToBuffer (jsToString r.value) with
      | some bytes =>
        rw [hdec] at h
        injection h with h
        rw [base64ToBuffer_eq_some (jsToString r.value) bytes hdec]
        exact h
      | none =>
        rw [hdec] at h
        cases h
    · simp only [if_neg hlen] at h ⊢
      injection h

/-- An unmarked entry's switch returns `undefined` without throwing. -/
theorem uint8ArrayIfBig_of_none (r : DataRef) (h : offloadBytesOf r = none) :
    uint8ArrayIfBig r = Except.ok none := by
  cases ht : effectiveType r with
  | hash => simp only [uint8ArrayIfBig, ht]
  | json =>
    simp only [offloadBytesOf, ht] at h
    simp only [uint8ArrayIfBig, ht]
    by_cases htr : truthy r.value
    · by_cases hlen : ENV_VAR_DATA_ITEM_LENGTH_MAX < (jsonStringify r.value).length
      · simp only [if_pos htr, if_pos hlen] at h
        exact Option.noConfusion h
      · simp only [if_pos htr, if_neg hlen]
    · simp only [if_neg htr]
  | utf8 =>
    simp only [offloadBytesOf, ht] at h
    simp only [uint8ArrayIfBig, ht]
    by_cases hlen : ENV_VAR_DATA_ITEM_LENGTH_MAX < (jsLength r.value).getD 0
    · simp only [if_pos hlen] at h
      exact Option.noConfusion h
    · simp only [if_neg hlen]
  | url =>
    simp only [offloadBytesOf, ht] at h
    simp only [uint8ArrayIfBig, ht]
    by_cases hlen : ENV_VAR_DATA_ITEM_LENGTH_MAX < (jsLength r.value).getD 0
    · simp only [if_pos hlen] at h
      exact Option.noConfusion h
    · simp only [if_neg hlen]
  | base64 =>
    simp only [offloadBytesOf, ht] at h
    simp only [uint8ArrayIfBig, ht]
    by_cases hlen : ENV_VAR_DATA_ITEM_LENGTH_MAX < (jsLength r.value).getD 0
    · simp only [if_pos hlen] at h
      exact Option.noConfusion h
    · simp only [if_neg hlen]

/-- A successful per-entry run records exactly the upload calls demanded by
the offload test. -/
theorem copyEntry_trace {ε : Type} (sha1 : HashInput → String)
    (upload : List Nat → Except ε DataRef) (r r2 : DataRef) (t1 : List (List Nat))
    (h : copyEntry sha1 upload r = Except.ok (r2, t1)) :
    t1 = (offloadBytesOf r).toList := by
  unfold copyEntry at h
  cases hu : uint8ArrayIfBig r with
  | error e => rw [hu] at h; cases h
  | ok o =>
    rw [hu] at h
    rw [uint8ArrayIfBig_ok r o hu]
    cases o with
    | none =>
      injection h with h
      injection h with hfst hsnd
      exact hsnd.symm
    | some bytes =>
      simp only at h
      cases hup : upload bytes with
      | error e => rw [hup] at h; cases h
      | ok remoteRef =>
        rw [hup] at h
        injection h with h
        injection h with hfst hsnd
        exact hsnd.symm

/-- A successful per-entry run of an entry marked for offload uploads its
decoded bytes once and installs the returned ref with the local digest. -/
theorem copyEntry_offload {ε : Type} (sha1 : HashInput → String)
    (upload : List Nat → Except ε DataRef) (r r2 : DataRef)
    (bytes : List Nat) (t1 : List (List Nat))
    (hb : offloadBytesOf r = some bytes)
    (h : copyEntry sha1 upload r = Except.ok (r2, t1)) :
    ∃ remoteRef, upload bytes = Except.ok remoteRef ∧
      r2 = { remoteRef with hash := some (sha1 (HashInput.bytes bytes)) } ∧
      t1 = [bytes] := by
  unfold copyEntry at h
  cases hu : uint8ArrayIfBig r with
  | error e => rw [hu] at h; cases h
  | ok o =>
    rw [hu] at h
    have ho : o = some bytes := by
      rw [← uint8ArrayIfBig_ok r o hu]
      exact hb
    subst ho
    simp only at h
    cases hup : upload bytes with
    | error e => rw [hup] at h; cases h
    | ok remoteRef =>
      rw [hup] at h
      injection h with h
      injection h with hfst hsnd
      exact ⟨remoteRef, rfl, hfst.symm, hsnd.symm⟩

/-- An entry not marked for offload passes through identically, with no
upload call, whatever the upload function is. -/
theorem copyEntry_passthrough {ε : Type} (sha1 : HashInput → String)
    (upload : List Nat → Except ε DataRef) (r : DataRef)
    (hb : offloadBytesOf r = none) :
    copyEntry sha1 upload r = Except.ok (r, []) := by
  unfold copyEntry
  rw [uint8ArrayIfBig_of_none r hb]

/-- When no entry is marked for offload, the fan-out returns the mapping
identically with an empty call trace. -/
theorem copyEntries_of_no_offload {ε : Type} (sha1 : HashInput → String)
    (upload : List Nat → Except ε DataRef) (inputs : List (String × DataRef))
    (h : ∀ p ∈ inputs, offloadBytesOf p.2 = none) :
    copyEntries sha1 upload inputs = Except.ok (inputs, []) := by
  induction inputs with
  | nil => rfl
  | cons p rest ih =>
    obtain ⟨name, r⟩ := p
    rw [copyEntries]
    rw [copyEntry_passthrough sha1 upload r (h (name, r) (List.mem_cons_self _ _))]
    rw [ih (fun q hq => h q (List.mem_cons_of_mem _ hq))]
    rfl

/-- A successful fan-out's call trace is exactly the decoded bytes of the
entries marked for offload, one call per marked entry in entry order. -/
theorem copyEntries_trace {ε : Type} (sha1 : HashInput → String)
    (upload : List Nat → Except ε DataRef) (inputs : List (String × DataRef)) :
    ∀ out trace, copyEntries sha1 upload inputs = Except.ok (out, trace) →
      trace = inputs.filterMap (fun p => offloadBytesOf p.2) := by
  induction inputs with
  | nil =>
    intro out trace h
    injection h with h
    injection h with hfst hsnd
    exact hsnd.symm
  | cons p rest ih =>
    intro out trace h
    obtain ⟨name, r⟩ := p
    rw [copyEntries] at h
    cases hc : copyEntry sha1 upload r with
    | error e => rw [hc] at h; cases h
    | ok pr =>
      obtain ⟨r2, t1⟩ := pr
      rw [hc] at h
      simp only at h
      cases hr : copyEntries sha1 upload rest with
      | error e => rw [hr] at h; cases h
      | ok qr =>
        obtain ⟨rs, t2⟩ := qr
        rw [hr] at h
        injection h with h
        injection h with hfst hsnd
        rw [← hsnd, copyEntry_trace sha1 upload r r2 t1 hc, ih rs t2 hr]
        cases ho : offloadBytesOf r <;> simp [List.filterMap_cons, ho]

/-- A successful fan-out preserves the key list of the mapping. -/
theorem copyEntries_keys {ε : Type} (sha1 : HashInput → String)
    (upload : List Nat → Except ε DataRef) (inputs : List (String × DataRef)) :
    ∀ out trace, copyEntries sha1 upload inputs = Except.ok (out, trace) →
      out.map Prod.fst = inputs.map Prod.fst := by
  induction inputs with
  | nil =>
    intro out trace h
    injection h with h
    injection h with hfst hsnd
    rw [← hfst]
  | cons p rest ih =>
    intro out trace h
    obtain ⟨name, r⟩ := p
    rw [copyEntries] at h
    cases hc : copyEntry sha1 upload r with
    | error e => rw [hc] at h; cases h
    | ok pr =>
      obtain ⟨r2, t1⟩ := pr
      rw [hc] at h
      simp only at h
      cases hr : copyEntries sha1 upload rest with
      | error e => rw [hr] at h; cases h
      | ok qr =>
        obtain ⟨rs, t2⟩ := qr
        rw [hr] at h
        injection h with h
        injection h with hfst hsnd
        rw [← hfst]
        simp [ih rs t2 hr]

/-- A successful fan-out means every entry's own processing succeeded. -/
theorem copyEntries_ok_entry {ε : Type} (sha1 : HashInput → String)
    (upload : List Nat → Except ε DataRef) (inputs : List (String × DataRef)) :
    ∀ out trace, copyEntries sha1 upload inputs = Except.ok (out, trace) →
      ∀ name r, (name, r) ∈ inputs →
        ∃ pr, copyEntry sha1 upload r = Except.ok pr := by
  induction inputs with
  | nil =>
    intro out trace h name r hmem
    simp at hmem
  | cons p rest ih =>
    intro out trace h name r hmem
    obtain ⟨n0, r0⟩ := p
    rw [copyEntries] at h
    cases hc : copyEntry sha1 upload r0 with
    | error e => rw [hc] at h; cases h
    | ok pr0 =>
      rw [hc] at h
      simp only at h
      cases hr : copyEntries sha1 upload rest with
      | error e =>
        obtain ⟨r2, t1⟩ := pr0
        rw [hr] at h; cases h
      | ok qr =>
        rcases List.mem_cons.mp hmem with heq | hmem2
        · have : r = r0 := congrArg Prod.snd heq
          rw [this]
          exact ⟨pr0, hc⟩
        · obtain ⟨rs, t2⟩ := qr
          exact ih rs t2 hr name r hmem2

set_option maxRecDepth 8000 in
/-- C1: the claim states that with `type` absent the effective encoding type
resolves to `json` when `value` is a non-string structured object.  The code
resolves `dataRef.type || DataRefTypeDefault` without ever inspecting the
value, contradicting the documentation of `DataRefTypeDefault` ("UNLESS the
value is an object, then it is assumed to be DataRefType.json"): at the
concrete input `{ value: {"a": <201-char string>} }` (type absent, object
value) the effective type is `base64` and not `json`, the offload policy does
not mark the entry although its JSON text exceeds 200 characters, and
`dataRefToBlob` takes the base64 arm — coercing the object to
"[object Object]", on which atob throws `InvalidCharacterError` — instead of
producing the JSON bytes, which the documented `json` resolution does
produce. -/
theorem c1_absent_type_object_value_resolves_to_base64 :
    effectiveType bigObjRef = DataRefType.base64 ∧
    DataRefType.base64 ≠ DataRefType.json ∧
    offloadBytesOf bigObjRef = none ∧
    200 < (jsonStringify bigObjRef.value).length ∧
    jsToString bigObjRef.value = "[object Object]" ∧
    dataRefToBlob fetchConst bigObjRef = Except.error "InvalidCharacterError" ∧
    dataRefToBlob fetchConst
      { value := bigObjRef.value, hash := none, type := some DataRefType.json } =
      Except.ok (Blob.mk (utf8ToBuffer (jsonStringify bigObjRef.value))) := by
  refine ⟨rfl, by decide, rfl, by decide, rfl, rfl, rfl⟩

/-- C2: every inline payload below the 200-unit threshold is left untouched:
the per-entry body of `copyLargeBlobsToRemote` makes no upload call and keeps
the identical entry, a whole mapping of such entries is returned unchanged
with an empty upload trace, and `base64ToDataRef` keeps the value inline with
type `base64`, differing at most in the hash field, with no upload call. -/
theorem c2_below_threshold_never_uploads {ε : Type} (sha1 : HashInput → String)
    (upload : List Nat → Except ε DataRef) (upload2 : String → Except ε DataRef)
    (r : DataRef) (inputs : List (String × DataRef)) (value : String) (ignoreHash : Bool)
    (hr : inlineSize r < 200)
    (hall : ∀ p ∈ inputs, inlineSize p.2 < 200)
    (hv : value.length < 200) :
    copyEntry sha1 upload r = Except.ok (r, []) ∧
    copyLargeBlobsToRemote sha1 (some inputs) upload = Except.ok (some inputs, []) ∧
    base64ToDataRef sha1 value upload2 ignoreHash 200 =
      Except.ok
        ({ value := JsValue.str value,
           hash := if ignoreHash then none else some (sha1 (HashInput.str value)),
           type := some DataRefType.base64 }, []) := by
  refine ⟨copyEntry_passthrough sha1 upload r (offloadBytesOf_eq_none_of_small r hr), ?_, ?_⟩
  · simp only [copyLargeBlobsToRemote]
    rw [copyEntries_of_no_offload sha1 upload inputs
      (fun p hp => offloadBytesOf_eq_none_of_small p.2 (hall p hp))]
  · unfold base64ToDataRef
    rw [if_pos hv]

/-- C2 witness at a concrete below-threshold entry, mapping and value. -/
theorem c2_below_threshold_never_uploads_witness :
    (inlineSize smallUtf8Ref < 200 ∧
     (∀ p ∈ [("a", smallUtf8Ref)], inlineSize p.2 < 200) ∧
     ("aGVsbG8=" : String).length < 200) ∧
    (copyEntry tagSha1 uploadBytesOk smallUtf8Ref = Except.ok (smallUtf8Ref, []) ∧
     copyLargeBlobsToRemote tagSha1 (some [("a", smallUtf8Ref)]) uploadBytesOk =
       Except.ok (some [("a", smallUtf8Ref)], []) ∧
     base64ToDataRef tagSha1 "aGVsbG8=" uploadStringOk false 200 =
       Except.ok
         ({ value := JsValue.str "aGVsbG8=",
            hash := some (tagSha1 (HashInput.str "aGVsbG8=")),
            type := some DataRefType.base64 }, [])) :=
  ⟨⟨by decide, by decide, by decide⟩,
   c2_below_threshold_never_uploads tagSha1 uploadBytesOk uploadStringOk smallUtf8Ref
     [("a", smallUtf8Ref)] "aGVsbG8=" false (by decide) (by decide) (by decide)⟩

/-- C7: a `hash`-effective-typed entry is never marked for upload, regardless
of its value's size, and passes through the per-entry processing of
`copyLargeBlobsToRemote` identically, with an empty upload-call trace. -/
theorem c7_hash_entries_pass_through {ε : Type} (sha1 : HashInput → String)
    (upload : List Nat → Except ε DataRef) (r : DataRef)
    (h : effectiveType r = DataRefType.hash) :
    offloadBytesOf r = none ∧ copyEntry sha1 upload r = Except.ok (r, []) := by
  have hb : offloadBytesOf r = none := by
    unfold offloadBytesOf
    rw [h]
  exact ⟨hb, copyEntry_passthrough sha1 upload r hb⟩

/-- C7 witness at a hash-typed entry with a 201-character value. -/
theorem c7_hash_entries_pass_through_witness :
    effectiveType bigHashRef = DataRefType.hash ∧
    (offloadBytesOf bigHashRef = none ∧
     copyEntry tagSha1 uploadBytesOk bigHashRef = Except.ok (bigHashRef, [])) :=
  ⟨by decide, c7_hash_entries_pass_through tagSha1 uploadBytesOk bigHashRef (by decide)⟩

/-- C8: blob conversion of a `hash`-effective-typed DataRef always fails with
the cannot-convert error and never returns a blob. -/
theorem c8_hash_blob_conversion_fails (fetchBlob : String → Except String (List Nat))
    (r : DataRef) (h : effectiveType r = DataRefType.hash) :
    dataRefToBlob fetchBlob r = Except.error "Cannot crate blob from type=hash" := by
  unfold dataRefToBlob
  rw [h]

/-- C8 witness at a hash-typed entry with a 201-character value. -/
theorem c8_hash_blob_conversion_fails_witness :
    effectiveType bigHashRef = DataRefType.hash ∧
    dataRefToBlob fetchConst bigHashRef = Except.error "Cannot crate blob from type=hash" :=
  ⟨by decide, c8_hash_blob_conversion_fails fetchConst bigHashRef (by decide)⟩

set_option maxRecDepth 8000 in
/-- C3 is refuted at the threshold boundary: an entry whose inline payload is
exactly 200 units — at the claimed threshold — is NOT uploaded by
`copyLargeBlobsToRemote`: the upload-call trace is empty and the entry passes
through unchanged, because the code offloads only on strictly greater
length. -/
theorem c3_counterexample_exactly_200_not_uploaded :
    copyLargeBlobsToRemote tagSha1
      (some [("a", { value := JsValue.str chars200, hash := none,
                     type := some DataRefType.utf8 })])
      uploadBytesOk =
    Except.ok
      (some [("a", { value := JsValue.str chars200, hash := none,
                     type := some DataRefType.utf8 })], []) := by
  rfl

/-- C3 (amended): uploads happen exactly once per oversized entry, where
oversized means strictly above 200 units for `copyLargeBlobsToRemote` (an
entry of exactly 200 units passes through) and at-or-above
`maxLengthUnmodified` for `base64ToDataRef`: on success the batch's
upload-call trace lists exactly the decoded bytes of the marked entries, one
call per marked entry in entry order, an entry is marked iff its effective
type is not `hash` and its inline size strictly exceeds 200, and the single
at-or-above-threshold value of `base64ToDataRef` is uploaded exactly once. -/
theorem c3_amended_upload_once_strictly_above {ε : Type} (sha1 : HashInput → String)
    (upload : List Nat → Except ε DataRef) (upload2 : String → Except ε DataRef)
    (inputs out : List (String × DataRef)) (trace : List (List Nat)) (r : DataRef)
    (value : String) (ignoreHash : Bool) (maxLen : Nat) (res : DataRef) (trace2 : List String)
    (h1 : copyEntries sha1 upload inputs = Except.ok (out, trace))
    (h2 : maxLen ≤ value.length)
    (h3 : base64ToDataRef sha1 value upload2 ignoreHash maxLen = Except.ok (res, trace2)) :
    trace = inputs.filterMap (fun p => offloadBytesOf p.2) ∧
    ((offloadBytesOf r).isSome = true ↔
      (effectiveType r ≠ DataRefType.hash ∧ 200 < inlineSize r)) ∧
    trace2 = [value] := by
  refine ⟨copyEntries_trace sha1 upload inputs out trace h1,
    offloadBytesOf_isSome_iff r, ?_⟩
  unfold base64ToDataRef at h3
  rw [if_neg (by omega)] at h3
  cases hu : upload2 value with
  | error e => rw [hu] at h3; cases h3
  | ok remoteRef =>
    rw [hu] at h3
    injection h3 with h3
    injection h3 with hfst hsnd
    exact hsnd.symm

set_option maxRecDepth 8000 in
/-- C3 (amended) witness: a 201-character utf8 entry is uploaded exactly once
and a 4-character value at threshold 4 is uploaded exactly once. -/
theorem c3_amended_upload_once_strictly_above_witness :
    (copyEntries tagSha1 uploadBytesOk [("a", bigUtf8Ref)] =
       Except.ok
         ([("a", { value := JsValue.str "remote-key",
                   hash := some (tagSha1 (HashInput.bytes (utf8ToBuffer chars201))),
                   type := some DataRefType.hash })],
          [utf8ToBuffer chars201]) ∧
     (4 : Nat) ≤ ("QQ==" : String).length ∧
     base64ToDataRef tagSha1 "QQ==" uploadStringOk false 4 =
       Except.ok
         ({ value := JsValue.str "remote-key",
            hash := some (tagSha1 (HashInput.str "QQ==")),
            type := some DataRefType.hash }, ["QQ=="])) ∧
    ([utf8ToBuffer chars201] =
       [("a", bigUtf8Ref)].filterMap (fun p => offloadBytesOf p.2) ∧
     ((offloadBytesOf bigUtf8Ref).isSome = true ↔
       (effectiveType bigUtf8Ref ≠ DataRefType.hash ∧ 200 < inlineSize bigUtf8Ref)) ∧
     ["QQ=="] = ["QQ=="]) :=
  ⟨⟨rfl, by decide, rfl⟩,
   c3_amended_upload_once_strictly_above tagSha1 uploadBytesOk uploadStringOk
     [("a", bigUtf8Ref)] _ _ bigUtf8Ref "QQ==" false 4 _ _ rfl (by decide) rfl⟩

/-- C4 is refuted at the `base64ToDataRef` offload site: the installed hash
is the digest of the base64 *string*, not of the original decoded bytes.
With the type-tagged hash primitive (as `object-hash` is, since it serializes
the runtime type of its argument), uploading "QQ==" — which decodes to the
single byte [65] — installs the digest of the string "QQ==", which differs
from the digest of the decoded bytes [65]. -/
theorem c4_counterexample_string_digest_not_bytes_digest :
    base64ToDataRef tagSha1 "QQ==" uploadStringOk false 4 =
      Except.ok
        ({ value := JsValue.str "remote-key",
           hash := some (tagSha1 (HashInput.str "QQ==")),
           type := some DataRefType.hash }, ["QQ=="]) ∧
    base64ToBuffer "QQ==" = some [65] ∧
    tagSha1 (HashInput.str "QQ==") ≠ tagSha1 (HashInput.bytes [65]) := by
  refine ⟨rfl, by decide, by decide⟩

/-- C4 (amended): every offloaded entry's installed hash is computed locally
with the one injected hash function and overwrites whatever hash the upload's
returned DataRef carried; at the `copyLargeBlobsToRemote` site the digest is
taken over the decoded bytes, while at the `base64ToDataRef` site it is taken
over the base64 string value itself (when `ignoreHash` is unset). -/
theorem c4_amended_local_digest_overwrites {ε : Type} (sha1 : HashInput → String)
    (upload : List Nat → Except ε DataRef) (upload2 : String → Except ε DataRef)
    (r r2 : DataRef) (bytes : List Nat) (t1 : List (List Nat))
    (value : String) (maxLen : Nat) (remoteRef2 : DataRef)
    (hb : offloadBytesOf r = some bytes)
    (h1 : copyEntry sha1 upload r = Except.ok (r2, t1))
    (h2 : maxLen ≤ value.length)
    (hup2 : upload2 value = Except.ok remoteRef2) :
    r2.hash = some (sha1 (HashInput.bytes bytes)) ∧
    base64ToDataRef sha1 value upload2 false maxLen =
      Except.ok
        ({ remoteRef2 with hash := some (sha1 (HashInput.str value)) }, [value]) := by
  constructor
  · rcases copyEntry_offload sha1 upload r r2 bytes t1 hb h1 with ⟨remoteRef, -, hr2, -⟩
    rw [hr2]
  · unfold base64ToDataRef
    rw [if_neg (by omega), hup2]
    rfl

set_option maxRecDepth 8000 in
/-- C4 (amended) witness at a concrete oversized utf8 entry and a concrete
oversized base64 value. -/
theorem c4_amended_local_digest_overwrites_witness :
    (offloadBytesOf bigUtf8Ref = some (utf8ToBuffer chars201) ∧
     copyEntry tagSha1 uploadBytesOk bigUtf8Ref =
       Except.ok
         ({ value := JsValue.str "remote-key",
            hash := some (tagSha1 (HashInput.bytes (utf8ToBuffer chars201))),
            type := some DataRefType.hash }, [utf8ToBuffer chars201]) ∧
     (4 : Nat) ≤ ("QQ==" : String).length ∧
     uploadStringOk "QQ==" = Except.ok remoteRefConst) ∧
    (({ value := JsValue.str "remote-key",
        hash := some (tagSha1 (HashInput.bytes (utf8ToBuffer chars201))),
        type := some DataRefType.hash } : DataRef).hash =
       some (tagSha1 (HashInput.bytes (utf8ToBuffer chars201))) ∧
     base64ToDataRef tagSha1 "QQ==" uploadStringOk false 4 =
       Except.ok
         ({ remoteRefConst with hash := some (tagSha1 (HashInput.str "QQ==")) },
          ["QQ=="])) :=
  ⟨⟨rfl, rfl, by decide, rfl⟩,
   c4_amended_local_digest_overwrites tagSha1 uploadBytesOk uploadStringOk
     bigUtf8Ref _ (utf8ToBuffer chars201) _ "QQ==" 4 remoteRefConst
     rfl rfl (by decide) rfl⟩

/-- C5: if the upload of any one entry marked for offload fails, the whole
`copyLargeBlobsToRemote` invocation fails — no mapping at all is returned, in
particular no partial mapping. -/
theorem c5_upload_failure_fails_whole_batch {ε : Type} (sha1 : HashInput → String)
    (upload : List Nat → Except ε DataRef) (inputs : List (String × DataRef))
    (name : String) (r : DataRef) (bytes : List Nat) (e : ε)
    (hmem : (name, r) ∈ inputs)
    (hb : offloadBytesOf r = some bytes)
    (hfail : upload bytes = Except.error e) :
    isError (copyLargeBlobsToRemote sha1 (some inputs) upload) = true := by
  simp only [copyLargeBlobsToRemote]
  cases hce : copyEntries sha1 upload inputs with
  | error e2 => rfl
  | ok pr =>
    obtain ⟨out, trace⟩ := pr
    exfalso
    rcases copyEntries_ok_entry sha1 upload inputs out trace hce name r hmem with ⟨pr2, hok⟩
    unfold copyEntry at hok
    cases hbig : uint8ArrayIfBig r with
    | error e2 => rw [hbig] at hok; cases hok
    | ok o =>
      rw [hbig] at hok
      have ho : o = some bytes := by
        rw [← uint8ArrayIfBig_ok r o hbig]
        exact hb
      subst ho
      simp only at hok
      rw [hfail] at hok
      cases hok

set_option maxRecDepth 8000 in
/-- C5 witness: one oversized entry whose upload rejects fails the batch. -/
theorem c5_upload_failure_fails_whole_batch_witness :
    (("a", bigUtf8Ref) ∈ [("a", bigUtf8Ref)] ∧
     offloadBytesOf bigUtf8Ref = some (utf8ToBuffer chars201) ∧
     uploadBytesBoom (utf8ToBuffer chars201) = Except.error "upload failed") ∧
    isError (copyLargeBlobsToRemote tagSha1 (some [("a", bigUtf8Ref)]) uploadBytesBoom) = true :=
  ⟨⟨List.mem_cons_self _ _, rfl, rfl⟩,
   c5_upload_failure_fails_whole_batch tagSha1 uploadBytesBoom [("a", bigUtf8Ref)]
     "a" bigUtf8Ref (utf8ToBuffer chars201) "upload failed"
     (List.mem_cons_self _ _) rfl rfl⟩

/-- C6: an absent input mapping yields an absent result, an empty mapping an
empty mapping, a present mapping a present mapping, and any successful run
preserves the key list of the input exactly. -/
theorem c6_mapping_shape_preserved {ε : Type} (sha1 : HashInput → String)
    (upload : List Nat → Except ε DataRef)
    (inputs out : List (String × DataRef)) (trace : List (List Nat))
    (h : copyEntries sha1 upload inputs = Except.ok (out, trace)) :
    copyLargeBlobsToRemote sha1 none upload = Except.ok (none, []) ∧
    copyLargeBlobsToRemote sha1 (some []) upload = Except.ok (some [], []) ∧
    copyLargeBlobsToRemote sha1 (some inputs) upload = Except.ok (some out, trace) ∧
    out.map Prod.fst = inputs.map Prod.fst := by
  refine ⟨rfl, rfl, ?_, copyEntries_keys sha1 upload inputs out trace h⟩
  simp only [copyLargeBlobsToRemote]
  rw [h]

set_option maxRecDepth 8000 in
/-- C6 witness at a concrete two-entry mapping, one passed through and one
replaced. -/
theorem c6_mapping_shape_preserved_witness :
    copyEntries tagSha1 uploadBytesOk [("a", smallUtf8Ref), ("b", bigUtf8Ref)] =
      Except.ok
        ([("a", smallUtf8Ref),
          ("b", { value := JsValue.str "remote-key",
                  hash := some (tagSha1 (HashInput.bytes (utf8ToBuffer chars201))),
                  type := some DataRefType.hash })],
         [utf8ToBuffer chars201]) ∧
    (copyLargeBlobsToRemote tagSha1 none uploadBytesOk = Except.ok (none, []) ∧
     copyLargeBlobsToRemote tagSha1 (some []) uploadBytesOk = Except.ok (some [], []) ∧
     copyLargeBlobsToRemote tagSha1 (some [("a", smallUtf8Ref), ("b", bigUtf8Ref)]) uploadBytesOk =
       Except.ok
         (some [("a", smallUtf8Ref),
                ("b", { value := JsValue.str "remote-key",
                        hash := some (tagSha1 (HashInput.bytes (utf8ToBuffer chars201))),
                        type := some DataRefType.hash })],
          [utf8ToBuffer chars201]) ∧
     ([("a", smallUtf8Ref),
       ("b", { value := JsValue.str "remote-key",
               hash := some (tagSha1 (HashInput.bytes (utf8ToBuffer chars201))),
               type := some DataRefType.hash })].map Prod.fst =
      [("a", smallUtf8Ref), ("b", bigUtf8Ref)].map Prod.fst)) :=
  ⟨rfl,
   c6_mapping_shape_preserved tagSha1 uploadBytesOk
     [("a", smallUtf8Ref), ("b", bigUtf8Ref)] _ _ rfl⟩

/-- C9: round-trip of the inline encodings through `dataRefToBlob`: a
base64-inline DataRef built from B's base64 encoding — whether directly or
via `base64ToDataRef` below the threshold — decodes to exactly the bytes B; a
utf8-typed DataRef of a string decodes to that string's UTF-8 bytes; a
json-typed DataRef of a value decodes to the UTF-8 bytes of that value's JSON
serialization. -/
theorem c9_inline_roundtrip {ε : Type} (fetchBlob : String → Except String (List Nat))
    (sha1 : HashInput → String) (upload2 : String → Except ε DataRef)
    (B : List Nat) (s : String) (v : JsValue) (ignoreHash : Bool) (maxLen : Nat)
    (hB : ∀ x ∈ B, x < 256)
    (hlen : (base64Encode B).length < maxLen) :
    dataRefToBlob fetchBlob
      { value := JsValue.str (base64Encode B), hash := none,
        type := some DataRefType.base64 } = Except.ok (Blob.mk B) ∧
    base64ToDataRef sha1 (base64Encode B) upload2 ignoreHash maxLen =
      Except.ok
        ({ value := JsValue.str (base64Encode B),
           hash := if ignoreHash then none
                   else some (sha1 (HashInput.str (base64Encode B))),
           type := some DataRefType.base64 }, []) ∧
    dataRefToBlob fetchBlob
      { value := JsValue.str (base64Encode B),
        hash := if ignoreHash then none
                else some (sha1 (HashInput.str (base64Encode B))),
        type := some DataRefType.base64 } = Except.ok (Blob.mk B) ∧
    dataRefToBlob fetchBlob
      { value := JsValue.str s, hash := none, type := some DataRefType.utf8 } =
      Except.ok (Blob.mk (utf8ToBuffer s)) ∧
    dataRefToBlob fetchBlob
      { value := v, hash := none, type := some DataRefType.json } =
      Except.ok (Blob.mk (utf8ToBuffer (jsonStringify v))) := by
  have hdec : base64ToBuffer (base64Encode B) = some B := base64ToBuffer_base64Encode B hB
  refine ⟨?_, ?_, ?_, rfl, rfl⟩
  · show (match base64ToBuffer (jsToString (JsValue.str (base64Encode B))) with
      | some buffer => Except.ok (Blob.mk buffer)
      | none => Except.error "InvalidCharacterError") = Except.ok (Blob.mk B)
    rw [show base64ToBuffer (jsToString (JsValue.str (base64Encode B))) = some B from hdec]
  · unfold base64ToDataRef
    rw [if_pos hlen]
  · show (match base64ToBuffer (jsToString (JsValue.str (base64Encode B))) with
      | some buffer => Except.ok (Blob.mk buffer)
      | none => Except.error "InvalidCharacterError") = Except.ok (Blob.mk B)
    rw [show base64ToBuffer (jsToString (JsValue.str (base64Encode B))) = some B from hdec]

/-- C9 witness at bytes [104,101,108,108,111] ("hello"), the string "hi" and
the value `{"a": 1}`. -/
theorem c9_inline_roundtrip_witness :
    ((∀ x ∈ [104, 101, 108, 108, 111], x < 256) ∧
     (base64Encode [104, 101, 108, 108, 111]).length < 200) ∧
    (dataRefToBlob fetchConst
       { value := JsValue.str (base64Encode [104, 101, 108, 108, 111]), hash := none,
         type := some DataRefType.base64 } =
       Except.ok (Blob.mk [104, 101, 108, 108, 111]) ∧
     base64ToDataRef tagSha1 (base64Encode [104, 101, 108, 108, 111]) uploadStringOk false 200 =
       Except.ok
         ({ value := JsValue.str (base64Encode [104, 101, 108, 108, 111]),
            hash := some (tagSha1 (HashInput.str (base64Encode [104, 101, 108, 108, 111]))),
            type := some DataRefType.base64 }, []) ∧
     dataRefToBlob fetchConst
       { value := JsValue.str (base64Encode [104, 101, 108, 108, 111]),
         hash := some (tagSha1 (HashInput.str (base64Encode [104, 101, 108, 108, 111]))),
         type := some DataRefType.base64 } =
       Except.ok (Blob.mk [104, 101, 108, 108, 111]) ∧
     dataRefToBlob fetchConst
       { value := JsValue.str "hi", hash := none, type := some DataRefType.utf8 } =
       Except.ok (Blob.mk (utf8ToBuffer "hi")) ∧
     dataRefToBlob fetchConst
       { value := JsValue.obj [("a", JsValue.num 1)], hash := none,
         type := some DataRefType.json } =
       Except.ok
         (Blob.mk (utf8ToBuffer (jsonStringify (JsValue.obj [("a", JsValue.num 1)]))))) :=
  ⟨⟨by decide, by decide⟩,
   c9_inline_roundtrip fetchConst tagSha1 uploadStringOk
     [104, 101, 108, 108, 111] "hi" (JsValue.obj [("a", JsValue.num 1)]) false 200
     (by decide) (by decide)⟩

set_option maxRecDepth 8000 in
/-- C10 is refuted on the decode path: a url-typed entry whose over-200-char
value is not valid base64 — as any real URL is not — is not "base64-decoded
and uploaded"; atob throws `InvalidCharacterError` inside the entry's closure
(here: 201 characters, a length atob always rejects), the upload is never
invoked, and the whole invocation fails instead of replacing the entry. -/
theorem c10_counterexample_invalid_url_value_throws :
    copyLargeBlobsToRemote tagSha1 (some [("a", bigUrlRef)]) uploadBytesOk =
      Except.error (JsRejection.thrown "InvalidCharacterError") := by
  rfl

/-- C10 (amended): `url`-typed entries are handled by the `case base64:
default:` branch of the offload switch, never as a distinct case: the switch
treats them exactly as the same entry declared `base64`; a URL string of at
most 200 characters passes through unchanged; a URL string longer than 200
characters is handed to the base64 decoder — when it is valid base64 the
decoded bytes are uploaded and the uploaded reference, carrying the locally
computed digest of the decoded bytes, replaces the url entry, and when it is
not (as for any real URL) atob throws `InvalidCharacterError` and the entry's
processing — hence the whole invocation — fails. -/
theorem c10_amended_url_via_default_branch {ε : Type} (sha1 : HashInput → String)
    (upload : List Nat → Except ε DataRef) (r : DataRef) (u : String)
    (remoteRef : DataRef) (bytes : List Nat)
    (ht : r.type = some DataRefType.url)
    (hv : r.value = JsValue.str u)
    (hup : upload bytes = Except.ok remoteRef) :
    uint8ArrayIfBig r =
      uint8ArrayIfBig { value := r.value, hash := r.hash, type := some DataRefType.base64 } ∧
    (u.length ≤ 200 → copyEntry sha1 upload r = Except.ok (r, [])) ∧
    (200 < u.length → base64ToBuffer u = some bytes →
      copyEntry sha1 upload r =
        Except.ok
          ({ remoteRef with hash := some (sha1 (HashInput.bytes bytes)) }, [bytes])) ∧
    (200 < u.length → base64ToBuffer u = none →
      copyEntry sha1 upload r = Except.error (JsRejection.thrown "InvalidCharacterError")) := by
  obtain ⟨val, hsh, ty⟩ := r
  simp only at ht hv
  subst ht hv
  have hif : uint8ArrayIfBig
      { value := JsValue.str u, hash := hsh, type := some DataRefType.url } =
      if 200 < u.length then
        (match base64ToBuffer u with
         | some bytes => Except.ok (some bytes)
         | none => Except.error "InvalidCharacterError")
      else Except.ok none := rfl
  have hoff : offloadBytesOf
      { value := JsValue.str u, hash := hsh, type := some DataRefType.url } =
      if 200 < u.length then some (b64decodeChars u.data) else none := rfl
  refine ⟨rfl, ?_, ?_, ?_⟩
  · intro hsmall
    apply copyEntry_passthrough
    rw [hoff, if_neg (by omega)]
  · intro hbig hdecode
    have huint : uint8ArrayIfBig
        { value := JsValue.str u, hash := hsh, type := some DataRefType.url } =
        Except.ok (some bytes) := by
      rw [hif, if_pos hbig, hdecode]
    unfold copyEntry
    rw [huint]
    show (match upload bytes with
      | Except.error e => Except.error (JsRejection.uploadRejected e)
      | Except.ok remoteRef2 =>
        Except.ok
          ({ remoteRef2 with hash := some (sha1 (HashInput.bytes bytes)) }, [bytes])) =
      Except.ok ({ remoteRef with hash := some (sha1 (HashInput.bytes bytes)) }, [bytes])
    rw [hup]
  · intro hbig hdecode
    have huint : uint8ArrayIfBig
        { value := JsValue.str u, hash := hsh, type := some DataRefType.url } =
        Except.error "InvalidCharacterError" := by
      rw [hif, if_pos hbig, hdecode]
    unfold copyEntry
    rw [huint]

set_option maxRecDepth 8000 in
/-- C10 (amended) witness at a url-typed entry whose 204-character value is
valid base64, decoding to 153 zero bytes. -/
theorem c10_amended_url_via_default_branch_witness :
    (validB64UrlRef.type = some DataRefType.url ∧
     validB64UrlRef.value = JsValue.str chars204A ∧
     uploadBytesOk (List.replicate 153 0) = Except.ok remoteRefConst) ∧
    (uint8ArrayIfBig validB64UrlRef =
       uint8ArrayIfBig { value := validB64UrlRef.value, hash := validB64UrlRef.hash,
                         type := some DataRefType.base64 } ∧
     (chars204A.length ≤ 200 →
       copyEntry tagSha1 uploadBytesOk validB64UrlRef = Except.ok (validB64UrlRef, [])) ∧
     (200 < chars204A.length → base64ToBuffer chars204A = some (List.replicate 153 0) →
       copyEntry tagSha1 uploadBytesOk validB64UrlRef =
         Except.ok
           ({ remoteRefConst with
                hash := some (tagSha1 (HashInput.bytes (List.replicate 153 0))) },
            [List.replicate 153 0])) ∧
     (200 < chars204A.length → base64ToBuffer chars204A = none →
       copyEntry tagSha1 uploadBytesOk validB64UrlRef =
         Except.error (JsRejection.thrown "InvalidCharacterError"))) :=
  ⟨⟨rfl, rfl, rfl⟩,
   c10_amended_url_via_default_branch tagSha1 uploadBytesOk validB64UrlRef chars204A
     remoteRefConst (List.replicate 153 0) rfl rfl rfl⟩
